import Mathlib

/-!
Shallow embedding of the secure password generator component in
`src/Passowrd-Generator.jsx`.

The React component keeps its data in `useState` hooks; `generatePassword`
reads the option flags and the requested length, builds a character pool,
maps a stream of secure random bytes to pool characters with rejection
sampling, and updates the password, entropy, strength level and history
state.  Here the random byte stream is an explicit `List Nat` argument
(each entry a byte in `[0,255]` produced by `getSecureRandomValues`), and
the state updates become a function from the old state to the new state.
-/

set_option maxHeartbeats 1000000
set_option maxRecDepth 100000

/-- The record of fixed character classes; mirrors the `charSets` object. -/
structure CharSets where
  lowercase : List Char
  uppercase : List Char
  numbers : List Char
  symbols : List Char
  ambiguous : List Char
  extendedAscii : List Char

/-- The `charSets` constant of the source: five selectable classes plus the
reserved ambiguous filter set `Il1O0`. -/
def charSets : CharSets where
  lowercase := "abcdefghijklmnopqrstuvwxyz".toList
  uppercase := "ABCDEFGHIJKLMNOPQRSTUVWXYZ".toList
  numbers := "0123456789".toList
  symbols := ['!', '@', '#', '$', '%', '^', '&', '*', '(', ')', '-', '_',
    '=', '+', '[', ']', '\x7b', '\x7d', '|', ';', ':', ',', '.', '<', '>',
    '?', '/', '~', '\x60', '\x22', '\x27', '\x5c']
  ambiguous := "Il1O0".toList
  extendedAscii := "€£¥¢§©®™¿¡ÀÁÂÃÄÅÆÇÈÉÊËÌÍÎÏÐÑÒÓÔÕÖØÙÚÛÜÝÞßàáâãäåæçèéêëìíîïðñòóôõöøùúûüýþÿ".toList

/-- The checkbox option flags; mirrors the `options` state object. -/
structure Options where
  lowercase : Bool
  uppercase : Bool
  numbers : Bool
  symbols : Bool
  ambiguous : Bool
  extendedAscii : Bool

/-- The charset construction at the top of `generatePassword`: concatenate
the selected classes in the source order, then (unless `ambiguous` is
checked) filter out every member of `charSets.ambiguous`. -/
def buildCharset (options : Options) : List Char :=
  let charset :=
    (if options.lowercase then charSets.lowercase else []) ++
    (if options.uppercase then charSets.uppercase else []) ++
    (if options.numbers then charSets.numbers else []) ++
    (if options.symbols then charSets.symbols else []) ++
    (if options.extendedAscii then charSets.extendedAscii else [])
  if options.ambiguous then charset
  else charset.filter (fun c => ! charSets.ambiguous.contains c)

/-- The rejection threshold `maxValidValue = 256 - (256 % charset.length)`
computed inside the byte-mapping loop of `generatePassword`. -/
def maxValidValue (n : Nat) : Nat := 256 - 256 % n

/-- The byte-to-character loops of `generatePassword`: consume the random
byte stream, accepting a byte `b` exactly when `b < maxValidValue` and then
appending `charset[b % charset.length]`, until `needed` characters have
been produced.  The source first walks a prepared batch of `2 * length`
bytes and then tops up one byte at a time; both loops apply this exact
per-byte rule, so the whole draw sequence is one stream here.  If the
stream runs out early the result is the partial output collected so far
(the source would keep drawing fresh bytes forever). -/
def buildPassword (charset : List Char) : Nat → List Nat → List Char
  | _, [] => []
  | 0, _ :: _ => []
  | needed + 1, b :: bs =>
    if b < maxValidValue charset.length then
      charset.getD (b % charset.length) ' ' :: buildPassword charset needed bs
    else
      buildPassword charset (needed + 1) bs

/-- Number of bytes of the stream that the rejection rule accepts for a
pool of the given size. -/
def countAccepted (n : Nat) (bytes : List Nat) : Nat :=
  bytes.countP (fun b => b < maxValidValue n)

/-- The `calculateEntropy` helper: `length * log2(charset.length)` via
`log charsetSize / log 2`. -/
noncomputable def calculateEntropy (charset : List Char) (length : Nat) : ℝ :=
  (length : ℝ) * (Real.log charset.length / Real.log 2)

/-- Entropy as a function of the pool size alone; `calculateEntropy`
factors through it (the source only uses `charset.length`). -/
noncomputable def entropyBits (n length : Nat) : ℝ :=
  (length : ℝ) * (Real.log n / Real.log 2)

/-- The `getStrengthLevel` helper: maps an entropy value to a level 0-4 by
successive `<` tests against 45, 60, 80, 100. -/
noncomputable def getStrengthLevel (entropyValue : ℝ) : Nat :=
  if entropyValue < 45 then 0
  else if entropyValue < 60 then 1
  else if entropyValue < 80 then 2
  else if entropyValue < 100 then 3
  else 4

/-- The `getStrengthLabel` helper: indexes the fixed label array by the
strength level. -/
def getStrengthLabel (strengthLevel : Nat) : String :=
  ["Very Weak", "Weak", "Medium", "Strong", "Very Strong"].getD strengthLevel ""

/-- The `getCrackTimeEstimation` helper: from the displayed (rounded)
entropy state it computes `2 ^ entropy / 1e10 / 2` seconds and renders a
banded human-readable string.  Exact rational arithmetic stands in for the
source's floating-point arithmetic. -/
def getCrackTimeEstimation (entropy : Int) : String :=
  let guessesPerSecond : ℚ := 10000000000
  let possibleCombinations : ℚ := 2 ^ entropy
  let seconds : ℚ := possibleCombinations / guessesPerSecond / 2
  if seconds < 1 then "Instantly"
  else if seconds < 60 then toString (round seconds) ++ " seconds"
  else if seconds < 3600 then toString (round (seconds / 60)) ++ " minutes"
  else if seconds < 86400 then toString (round (seconds / 3600)) ++ " hours"
  else if seconds < 31536000 then toString (round (seconds / 86400)) ++ " days"
  else if seconds < 31536000 * 100 then toString (round (seconds / 31536000)) ++ " years"
  else "Millions of years"

/-- The component state that `generatePassword` writes: the displayed
password, the displayed entropy (`Math.round` of the computed value), the
strength level and the password history. -/
structure GenState where
  password : String
  entropy : Int
  strengthLevel : Nat
  passwordHistory : List String

/-- The `generatePassword` callback as a state transformer.  With an empty
charset it sets the password display to a fixed message, zeroes entropy and
strength, and returns early (history untouched).  Otherwise it assembles
the password from the byte stream, stores the rounded entropy and the
strength level, and prepends the new password to the history truncated to
its first four entries (`[newPassword, ...prevHistory.slice(0, 4)]`). -/
noncomputable def generatePassword (options : Options) (passwordLength : Nat)
    (randomBytes : List Nat) (s : GenState) : GenState :=
  let charset := buildCharset options
  if charset.length = 0 then
    { s with password := "Please select at least one character set"
             entropy := 0
             strengthLevel := 0 }
  else
    let newPassword := String.mk (buildPassword charset passwordLength randomBytes)
    let entropyValue := calculateEntropy charset passwordLength
    { password := newPassword
      entropy := round entropyValue
      strengthLevel := getStrengthLevel entropyValue
      passwordHistory := newPassword :: s.passwordHistory.take 4 }

/-- The crack-time pipeline of the component for a pool of size `n` and a
requested length: `getCrackTimeEstimation` reads the entropy state, which
holds `Math.round(calculateEntropy(...))`. -/
noncomputable def crackTimeOfPool (n length : Nat) : String :=
  getCrackTimeEstimation (round (entropyBits n length))

/-! ### Concrete inputs used by witnesses -/

/-- All option flags off. -/
def optsNone : Options := ⟨false, false, false, false, false, false⟩

/-- Only `numbers` checked, with ambiguous characters allowed: the pool is
the ten digits. -/
def optsDigits : Options := ⟨false, false, true, false, true, false⟩

/-- Only `numbers` checked, ambiguous characters filtered: the pool is the
eight digits 2-9. -/
def optsDigitsNoAmb : Options := ⟨false, false, true, false, false, false⟩

/-- An initial component state. -/
def initState : GenState := ⟨"", 0, 0, []⟩

/-! ### Helper lemmas -/

/-- Concatenation of all five selectable classes in source order. -/
def fullPool : List Char :=
  charSets.lowercase ++ charSets.uppercase ++ charSets.numbers ++
    charSets.symbols ++ charSets.extendedAscii

theorem fullPool_nodup : fullPool.Nodup := by decide

theorem buildCharset_sublist (options : Options) :
    (buildCharset options).Sublist fullPool := by
  have h : ((if options.lowercase then charSets.lowercase else []) ++
      (if options.uppercase then charSets.uppercase else []) ++
      (if options.numbers then charSets.numbers else []) ++
      (if options.symbols then charSets.symbols else []) ++
      (if options.extendedAscii then charSets.extendedAscii else [])).Sublist fullPool := by
    unfold fullPool
    refine List.Sublist.append
      (List.Sublist.append (List.Sublist.append (List.Sublist.append ?_ ?_) ?_) ?_) ?_ <;>
      (split <;> simp)
  rw [buildCharset]
  split
  · exact h
  · exact (List.filter_sublist _).trans h

theorem buildPassword_length (charset : List Char) (needed : Nat) (bytes : List Nat)
    (h : needed ≤ countAccepted charset.length bytes) :
    (buildPassword charset needed bytes).length = needed := by
  induction bytes generalizing needed with
  | nil =>
    simp [countAccepted] at h
    subst h
    rfl
  | cons b bs ih =>
    cases needed with
    | zero => rfl
    | succ k =>
      rw [countAccepted, List.countP_cons] at h
      by_cases hb : b < maxValidValue charset.length
      · rw [buildPassword, if_pos hb, List.length_cons]
        have hk : k ≤ countAccepted charset.length bs := by
          simp [hb] at h
          simpa [countAccepted] using h
        rw [ih k hk]
      · rw [buildPassword, if_neg hb]
        have hk : k + 1 ≤ countAccepted charset.length bs := by
          simp [hb] at h
          simpa [countAccepted] using h
        exact ih (k + 1) hk

theorem buildPassword_mem (charset : List Char) (hne : charset ≠ [])
    (needed : Nat) (bytes : List Nat) :
    ∀ c ∈ buildPassword charset needed bytes, c ∈ charset := by
  induction bytes generalizing needed with
  | nil => intro c hc; simp [buildPassword] at hc
  | cons b bs ih =>
    intro c hc
    cases needed with
    | zero => simp [buildPassword] at hc
    | succ k =>
      by_cases hb : b < maxValidValue charset.length
      · rw [buildPassword, if_pos hb] at hc
        rcases List.mem_cons.mp hc with hc | hc
        · have hlt : b % charset.length < charset.length :=
            Nat.mod_lt b (List.length_pos.mpr hne)
          rw [hc, List.getD_eq_getElem charset ' ' hlt]
          exact List.getElem_mem hlt
        · exact ih k c hc
      · rw [buildPassword, if_neg hb] at hc
        exact ih (k + 1) c hc

/-! ### Claim theorems -/

/-- C1: for a pool of size `N ≥ 1` and a raw random byte `b` in `[0,255]`,
the sampling loop accepts `b` exactly when `b < 256 - (256 % N)` (the
`maxValidValue` threshold); an accepted byte contributes the pool character
at index `b % N`, an index in `[0, N)`, while a rejected byte contributes
nothing: the same number of characters is still needed and is drawn from
the remaining byte stream. -/
theorem c1_rejection_sampling (charset : List Char) (needed b : Nat) (bs : List Nat)
    (hN : 1 ≤ charset.length) (hb : b ≤ 255) :
    maxValidValue charset.length = 256 - 256 % charset.length ∧
    (b < 256 - 256 % charset.length →
      b % charset.length < charset.length ∧
      buildPassword charset (needed + 1) (b :: bs) =
        charset.getD (b % charset.length) ' ' :: buildPassword charset needed bs) ∧
    (¬ b < 256 - 256 % charset.length →
      buildPassword charset (needed + 1) (b :: bs) =
        buildPassword charset (needed + 1) bs) := by
  refine ⟨rfl, fun h => ⟨Nat.mod_lt b (by omega), ?_⟩, fun h => ?_⟩
  · rw [buildPassword, if_pos (by simpa [maxValidValue] using h)]
  · rw [buildPassword, if_neg (by simpa [maxValidValue] using h)]

/-- Witness for C1: the digit pool, the accepted byte 7, one character
needed. -/
theorem c1_rejection_sampling_witness :
    buildPassword charSets.numbers 1 [7] =
      [charSets.numbers.getD (7 % charSets.numbers.length) ' '] := by
  have h := (c1_rejection_sampling charSets.numbers 0 7 [] (by decide) (by decide)).2.1
    (by decide)
  simpa [buildPassword] using h.2

/-- C2: when the built pool is non-empty and the byte stream contains at
least `L` accepted bytes, `generatePassword` stores a password of exactly
`L` characters, every one of which belongs to the built pool. -/
theorem c2_generate_length_mem (options : Options) (passwordLength : Nat)
    (bytes : List Nat) (s : GenState)
    (hpool : buildCharset options ≠ [])
    (hacc : passwordLength ≤ countAccepted (buildCharset options).length bytes) :
    (generatePassword options passwordLength bytes s).password.length = passwordLength ∧
    ∀ c ∈ (generatePassword options passwordLength bytes s).password.data,
      c ∈ buildCharset options := by
  have hlen : ¬ (buildCharset options).length = 0 := by
    simpa [List.length_eq_zero] using hpool
  have hgen : generatePassword options passwordLength bytes s =
      { password := String.mk (buildPassword (buildCharset options) passwordLength bytes)
        entropy := round (calculateEntropy (buildCharset options) passwordLength)
        strengthLevel := getStrengthLevel (calculateEntropy (buildCharset options) passwordLength)
        passwordHistory :=
          String.mk (buildPassword (buildCharset options) passwordLength bytes) ::
            s.passwordHistory.take 4 } := by
    simp [generatePassword, hlen]
  rw [hgen]
  refine ⟨?_, ?_⟩
  · show (buildPassword (buildCharset options) passwordLength bytes).length = passwordLength
    exact buildPassword_length _ _ _ hacc
  · intro c hc
    exact buildPassword_mem _ hpool _ _ c hc

/-- Witness for C2: the ten-digit pool, length 3, bytes 0, 1, 2 (all
accepted). -/
theorem c2_generate_length_mem_witness :
    (generatePassword optsDigits 3 [0, 1, 2] initState).password.length = 3 :=
  (c2_generate_length_mem optsDigits 3 [0, 1, 2] initState (by decide) (by decide)).1

theorem buildCharset_eq_nil (options : Options)
    (h : options.lowercase = false ∧ options.uppercase = false ∧
      options.numbers = false ∧ options.symbols = false ∧
      options.extendedAscii = false) :
    buildCharset options = [] := by
  obtain ⟨h1, h2, h3, h4, h5⟩ := h
  simp [buildCharset, h1, h2, h3, h4, h5]

/-- C3 counterexample: with every inclusion flag false, `generatePassword`
does not return or raise a typed `InvalidPolicy` error; it returns
normally, writing a fixed human-readable message into the password
display. -/
theorem c3_counterexample :
    (generatePassword optsNone 16 [] initState).password =
      "Please select at least one character set" ∧
    (generatePassword optsNone 16 [] initState).password ≠ "" := by
  have h : buildCharset optsNone = [] := by decide
  constructor <;> simp [generatePassword, h]

/-- C3 (amended): with every inclusion flag false the built pool is empty
and `generatePassword` returns early without generating a password: it sets
the password display to the message `Please select at least one character
set`, zeroes the entropy and strength level, and leaves the history
unchanged. -/
theorem c3_empty_pool_early_return (options : Options) (passwordLength : Nat)
    (bytes : List Nat) (s : GenState)
    (h : options.lowercase = false ∧ options.uppercase = false ∧
      options.numbers = false ∧ options.symbols = false ∧
      options.extendedAscii = false) :
    generatePassword options passwordLength bytes s =
      { s with password := "Please select at least one character set"
               entropy := 0
               strengthLevel := 0 } ∧
    (generatePassword options passwordLength bytes s).passwordHistory =
      s.passwordHistory := by
  have hnil := buildCharset_eq_nil options h
  constructor
  · simp [generatePassword, hnil]
  · simp [generatePassword, hnil]

/-- Witness for C3 (amended) at the all-false options and the initial
state. -/
theorem c3_empty_pool_early_return_witness :
    (generatePassword optsNone 16 [] initState).passwordHistory =
      initState.passwordHistory :=
  (c3_empty_pool_early_return optsNone 16 [] initState
    ⟨rfl, rfl, rfl, rfl, rfl⟩).2

/-- A character belongs to one of the classes whose inclusion flag is set
in the given options. -/
def memIncludedClass (options : Options) (c : Char) : Prop :=
  (options.lowercase = true ∧ c ∈ charSets.lowercase) ∨
  (options.uppercase = true ∧ c ∈ charSets.uppercase) ∨
  (options.numbers = true ∧ c ∈ charSets.numbers) ∨
  (options.symbols = true ∧ c ∈ charSets.symbols) ∨
  (options.extendedAscii = true ∧ c ∈ charSets.extendedAscii)

/-- C4: when the `ambiguous` option is off the built pool contains no
member of the ambiguous set `Il1O0`; when it is on, every ambiguous
character belonging to some included class is in the pool. -/
theorem c4_ambiguous_filter (options : Options) :
    (options.ambiguous = false →
      ∀ c ∈ buildCharset options, c ∉ charSets.ambiguous) ∧
    (options.ambiguous = true →
      ∀ c ∈ charSets.ambiguous, memIncludedClass options c →
        c ∈ buildCharset options) := by
  constructor
  · intro ha c hc
    simp [buildCharset, ha] at hc
    rcases hc with ⟨_, h⟩ | ⟨_, h⟩ | ⟨_, h⟩ | ⟨_, h⟩ | ⟨_, h⟩ <;> exact h
  · intro ha c _ hmem
    simp [buildCharset, ha]
    rcases hmem with ⟨hf, hm⟩ | ⟨hf, hm⟩ | ⟨hf, hm⟩ | ⟨hf, hm⟩ | ⟨hf, hm⟩ <;>
      simp [hf, hm]

/-- Witness for C4: with the digit pool and ambiguity filtered, the pool
character 2 is not ambiguous; with ambiguity allowed, the ambiguous digit 1
of the included numbers class is in the pool. -/
theorem c4_ambiguous_filter_witness :
    ('2' ∉ charSets.ambiguous) ∧ '1' ∈ buildCharset optsDigits :=
  ⟨(c4_ambiguous_filter optsDigitsNoAmb).1 rfl '2' (by decide),
   (c4_ambiguous_filter optsDigits).2 rfl '1' (by decide)
     (Or.inr (Or.inr (Or.inl ⟨rfl, by decide⟩)))⟩

/-- C5: for every choice of options the built pool has no duplicate
characters, so its length is the number of distinct eligible characters
(the quantity the entropy formula consumes). -/
theorem c5_pool_nodup (options : Options) :
    (buildCharset options).Nodup ∧
    (buildCharset options).length = (buildCharset options).dedup.length := by
  have h : (buildCharset options).Nodup :=
    List.Nodup.sublist (buildCharset_sublist options) fullPool_nodup
  exact ⟨h, by rw [List.Nodup.dedup h]⟩

/-- C6: the strength tiers are the half-open lower-inclusive intervals
`<45`, `[45,60)`, `[60,80)`, `[80,100)`, `[100,inf)` mapping to levels 0-4
(Very Weak through Very Strong), and a pool of size 64 with length 16 gives
entropy `16 * log2(64) = 96` bits, level 3, label `Strong`. -/
theorem c6_strength_tiers :
    (∀ e : ℝ,
      (e < 45 → getStrengthLevel e = 0) ∧
      (45 ≤ e → e < 60 → getStrengthLevel e = 1) ∧
      (60 ≤ e → e < 80 → getStrengthLevel e = 2) ∧
      (80 ≤ e → e < 100 → getStrengthLevel e = 3) ∧
      (100 ≤ e → getStrengthLevel e = 4)) ∧
    entropyBits 64 16 = 96 ∧
    getStrengthLevel (entropyBits 64 16) = 3 ∧
    getStrengthLabel (getStrengthLevel (entropyBits 64 16)) = "Strong" := by
  have hlog2 : Real.log 2 ≠ 0 := ne_of_gt (Real.log_pos one_lt_two)
  have htier : ∀ e : ℝ,
      (e < 45 → getStrengthLevel e = 0) ∧
      (45 ≤ e → e < 60 → getStrengthLevel e = 1) ∧
      (60 ≤ e → e < 80 → getStrengthLevel e = 2) ∧
      (80 ≤ e → e < 100 → getStrengthLevel e = 3) ∧
      (100 ≤ e → getStrengthLevel e = 4) := by
    intro e
    refine ⟨fun h45 => ?_, fun h45 h60 => ?_, fun h60 h80 => ?_,
      fun h80 h100 => ?_, fun h100 => ?_⟩
    · rw [getStrengthLevel, if_pos h45]
    · rw [getStrengthLevel, if_neg (not_lt.mpr h45), if_pos h60]
    · rw [getStrengthLevel, if_neg (not_lt.mpr (by linarith)),
        if_neg (not_lt.mpr h60), if_pos h80]
    · rw [getStrengthLevel, if_neg (not_lt.mpr (by linarith)),
        if_neg (not_lt.mpr (by linarith)), if_neg (not_lt.mpr h80), if_pos h100]
    · rw [getStrengthLevel, if_neg (not_lt.mpr (by linarith)),
        if_neg (not_lt.mpr (by linarith)), if_neg (not_lt.mpr (by linarith)),
        if_neg (not_lt.mpr h100)]
  have h96 : entropyBits 64 16 = 96 := by
    rw [entropyBits, show ((64 : Nat) : ℝ) = (2 : ℝ) ^ (6 : Nat) by norm_num,
      Real.log_pow, mul_div_assoc, div_self hlog2]
    norm_num
  have hlvl : getStrengthLevel (entropyBits 64 16) = 3 := by
    rw [h96]
    exact (htier 96).2.2.2.1 (by norm_num) (by norm_num)
  exact ⟨htier, h96, hlvl, by rw [hlvl]; rfl⟩

/-- Witness for C6: an entropy of 50 bits lands in the `[45,60)` tier,
level 1. -/
theorem c6_strength_tiers_witness : getStrengthLevel 50 = 1 :=
  (c6_strength_tiers.1 50).2.1 (by norm_num) (by norm_num)

/-- C7: starting from a history of at most five entries, the history after
`generatePassword` still has at most five entries; a successful generation
prepends the new password (newest first) to the first four previous
entries, evicting the oldest when five were present, and the empty-pool
early return leaves the history unchanged. -/
theorem c7_history (options : Options) (passwordLength : Nat) (bytes : List Nat)
    (s : GenState) (hs : s.passwordHistory.length ≤ 5) :
    (generatePassword options passwordLength bytes s).passwordHistory.length ≤ 5 ∧
    (buildCharset options ≠ [] →
      (generatePassword options passwordLength bytes s).passwordHistory =
        String.mk (buildPassword (buildCharset options) passwordLength bytes) ::
          s.passwordHistory.take 4 ∧
      (s.passwordHistory.length = 5 →
        (generatePassword options passwordLength bytes s).passwordHistory =
          String.mk (buildPassword (buildCharset options) passwordLength bytes) ::
            s.passwordHistory.dropLast)) ∧
    (buildCharset options = [] →
      (generatePassword options passwordLength bytes s).passwordHistory =
        s.passwordHistory) := by
  by_cases hnil : buildCharset options = []
  · have h0 : (buildCharset options).length = 0 := by rw [hnil]; rfl
    refine ⟨?_, fun hne => absurd hnil hne, fun _ => ?_⟩ <;>
      simp [generatePassword, h0, hs]
  · have h0 : ¬ (buildCharset options).length = 0 := by
      simpa [List.length_eq_zero] using hnil
    have hgen : (generatePassword options passwordLength bytes s).passwordHistory =
        String.mk (buildPassword (buildCharset options) passwordLength bytes) ::
          s.passwordHistory.take 4 := by
      simp [generatePassword, h0]
    refine ⟨?_, fun _ => ⟨hgen, fun h5 => ?_⟩, fun h => absurd h hnil⟩
    · rw [hgen, List.length_cons, List.length_take]
      omega
    · rw [hgen, List.dropLast_eq_take, h5]

/-- Witness for C7: a full history of five entries, the digit pool and one
accepted byte: the new history again has five entries. -/
theorem c7_history_witness :
    (generatePassword optsDigits 1 [0]
      ⟨"", 0, 0, ["a", "b", "c", "d", "e"]⟩).passwordHistory.length ≤ 5 :=
  (c7_history optsDigits 1 [0] ⟨"", 0, 0, ["a", "b", "c", "d", "e"]⟩
    (by decide)).1

/-- C8: for every pool size `2 ≤ N ≤ 256` the number of byte values the
sampler rejects is `256 - maxValidValue N = 256 % N`, which is strictly
below 128, so the per-draw rejection probability `(256 % N) / 256` is
strictly below one half. -/
theorem c8_rejection_bound (n : Nat) (h2 : 2 ≤ n) (h256 : n ≤ 256) :
    256 - maxValidValue n = 256 % n ∧
    256 % n < 128 ∧
    ((256 % n : ℕ) : ℚ) / 256 < 1 / 2 := by
  have hmod : 256 % n < 128 := by
    have hd : ∀ m, m < 257 → 2 ≤ m → 256 % m < 128 := by decide
    exact hd n (by omega) h2
  refine ⟨?_, hmod, ?_⟩
  · have := Nat.mod_le 256 n
    rw [maxValidValue]
    omega
  · have hc : ((256 % n : ℕ) : ℚ) < 128 := by exact_mod_cast hmod
    rw [div_lt_iff (by norm_num : (0 : ℚ) < 256)]
    linarith

/-- Witness for C8 at pool size 3 (one rejected byte value, 255). -/
theorem c8_rejection_bound_witness :
    256 - maxValidValue 3 = 256 % 3 ∧ 256 % 3 < 128 :=
  ⟨(c8_rejection_bound 3 (by norm_num) (by norm_num)).1,
   (c8_rejection_bound 3 (by norm_num) (by norm_num)).2.1⟩

/-- C9 counterexample: a request of length 7 (outside both the UI slider
bounds `[8, 64]` and the documented `[8, 128]`) is neither clamped nor
rejected: `generatePassword` returns a 7-character password. -/
theorem c9_counterexample :
    (generatePassword optsDigits 7 [0, 0, 0, 0, 0, 0, 0] initState).password.length = 7 ∧
    (generatePassword optsDigits 7 [0, 0, 0, 0, 0, 0, 0] initState).password ≠
      "Please select at least one character set" := by
  have h0 : ¬ (buildCharset optsDigits).length = 0 := by decide
  have hgen : (generatePassword optsDigits 7 [0, 0, 0, 0, 0, 0, 0] initState).password =
      String.mk (buildPassword (buildCharset optsDigits) 7 [0, 0, 0, 0, 0, 0, 0]) := by
    simp [generatePassword, h0]
  rw [hgen]
  exact ⟨by decide, by decide⟩

/-- C9 (amended): `generatePassword` performs no length validation or
clamping and has no `InvalidLength` failure: even for a requested length
outside the slider bounds `[8, 64]`, whenever the pool is non-empty and
the byte stream supplies enough accepted bytes it returns a password of
exactly the requested length (and not the empty-pool message). -/
theorem c9_no_length_validation (options : Options) (passwordLength : Nat)
    (bytes : List Nat) (s : GenState)
    (hpool : buildCharset options ≠ [])
    (hout : passwordLength < 8 ∨ 64 < passwordLength)
    (hacc : passwordLength ≤ countAccepted (buildCharset options).length bytes) :
    (generatePassword options passwordLength bytes s).password.length =
      passwordLength ∧
    (generatePassword options passwordLength bytes s).password ≠
      "Please select at least one character set" := by
  have h0 : ¬ (buildCharset options).length = 0 := by
    simpa [List.length_eq_zero] using hpool
  have hgen : (generatePassword options passwordLength bytes s).password =
      String.mk (buildPassword (buildCharset options) passwordLength bytes) := by
    simp [generatePassword, h0]
  have hlen : (generatePassword options passwordLength bytes s).password.length =
      passwordLength := by
    rw [hgen]
    show (buildPassword (buildCharset options) passwordLength bytes).length =
      passwordLength
    exact buildPassword_length _ _ _ hacc
  refine ⟨hlen, fun heq => ?_⟩
  have : passwordLength = 40 := by
    rw [← hlen, heq]
    rfl
  omega

/-- Witness for C9 (amended): length 65 with the digit pool and 65 accepted
bytes. -/
theorem c9_no_length_validation_witness :
    (generatePassword optsDigits 65 (List.replicate 65 (0 : Nat))
      initState).password.length = 65 :=
  (c9_no_length_validation optsDigits 65 (List.replicate 65 (0 : Nat)) initState
    (by decide) (by omega) (by decide)).1

/-- C10: the entropy state stored by `generatePassword` is the rounded
value `round(L * log2(N))`, and the crack-time string is computed from that
rounded integer, so any two (pool size, length) pairs whose exact entropies
round to the same integer produce the identical crack-time string. -/
theorem c10_crack_time_rounded (options : Options) (passwordLength : Nat)
    (bytes : List Nat) (s : GenState) (n2 l2 : Nat)
    (hpool : buildCharset options ≠ [])
    (h : round (entropyBits (buildCharset options).length passwordLength) =
      round (entropyBits n2 l2)) :
    (generatePassword options passwordLength bytes s).entropy =
      round (entropyBits (buildCharset options).length passwordLength) ∧
    getCrackTimeEstimation
        (generatePassword options passwordLength bytes s).entropy =
      crackTimeOfPool n2 l2 := by
  have h0 : ¬ (buildCharset options).length = 0 := by
    simpa [List.length_eq_zero] using hpool
  have hent : (generatePassword options passwordLength bytes s).entropy =
      round (entropyBits (buildCharset options).length passwordLength) := by
    simp [generatePassword, h0, calculateEntropy, entropyBits]
  exact ⟨hent, by rw [hent, h, crackTimeOfPool]⟩

/-- Witness for C10: the eight-digit pool with length 5 and the pair
(pool 2, length 15) both have exact entropy 15 bits, hence the same
crack-time string. -/
theorem c10_crack_time_rounded_witness :
    getCrackTimeEstimation
      (generatePassword optsDigitsNoAmb 5 [0] initState).entropy =
      crackTimeOfPool 2 15 := by
  refine (c10_crack_time_rounded optsDigitsNoAmb 5 [0] initState 2 15
    (by decide) ?_).2
  have h8 : (buildCharset optsDigitsNoAmb).length = 8 := by decide
  have hlog2 : Real.log 2 ≠ 0 := ne_of_gt (Real.log_pos one_lt_two)
  have e1 : entropyBits 8 5 = ((15 : ℤ) : ℝ) := by
    rw [entropyBits, show ((8 : Nat) : ℝ) = (2 : ℝ) ^ (3 : Nat) by norm_num,
      Real.log_pow, mul_div_assoc, div_self hlog2]
    norm_num
  have e2 : entropyBits 2 15 = ((15 : ℤ) : ℝ) := by
    rw [entropyBits]
    push_cast
    rw [div_self hlog2]
    norm_num
  rw [h8, e1, e2]
